import Mathlib

/-!
# Facial symmetry scoring (`calculateSymmetryScore` of `script.js`)

A shallow embedding of the scoring function of the facial-symmetry page and
theorems about it.

Numbers.  JavaScript numbers are modelled by `JSNum`: the finite values are
exact rationals, and the three special values `Infinity`, `-Infinity` and
`NaN` are kept, because the function divides by `faceWidth`, which can be `0`.
Rounding error and overflow of double precision arithmetic are not modelled,
and neither is the sign of zero (every divisor in the function is the result
of `Math.abs`, so a zero divisor is always `+0`).

Exceptions.  Reading a property of `undefined` throws a `TypeError`; this is
the only exception the function can raise, and it is modelled by `Except`.
-/

namespace FacialSymmetry

/-! ## JavaScript numbers -/

/-- JavaScript number: a finite value, `Infinity`, `-Infinity` or `NaN`. -/
inductive JSNum where
  | fin (q : ℚ)
  | posInf
  | negInf
  | nan
  deriving DecidableEq

namespace JSNum

/-- Unary minus. -/
def neg : JSNum → JSNum
  | fin a => fin (-a)
  | posInf => negInf
  | negInf => posInf
  | nan => nan

/-- The `+` operator on numbers. -/
def add : JSNum → JSNum → JSNum
  | nan, _ => nan
  | _, nan => nan
  | fin a, fin b => fin (a + b)
  | posInf, negInf => nan
  | negInf, posInf => nan
  | posInf, _ => posInf
  | _, posInf => posInf
  | negInf, _ => negInf
  | _, negInf => negInf

/-- The `-` operator on numbers. -/
def sub (a b : JSNum) : JSNum := add a (neg b)

/-- An infinity with the sign given by `positive` times the sign of the finite value `q`;
`NaN` when `q` is zero (`Infinity * 0`). -/
def infTimes (positive : Bool) (q : ℚ) : JSNum :=
  if q = 0 then nan
  else if (0 < q) = positive then posInf else negInf

/-- The `*` operator on numbers. -/
def mul : JSNum → JSNum → JSNum
  | nan, _ => nan
  | _, nan => nan
  | fin a, fin b => fin (a * b)
  | posInf, fin b => infTimes true b
  | negInf, fin b => infTimes false b
  | fin a, posInf => infTimes true a
  | fin a, negInf => infTimes false a
  | posInf, posInf => posInf
  | negInf, negInf => posInf
  | posInf, negInf => negInf
  | negInf, posInf => negInf

/-- The `/` operator on numbers.  A zero divisor is taken to be `+0`:
`0 / 0` is `NaN`, `a / 0` is `Infinity` for `a > 0` and `-Infinity` for
`a < 0`. -/
def div : JSNum → JSNum → JSNum
  | nan, _ => nan
  | _, nan => nan
  | fin a, fin b =>
      if b = 0 then (if a = 0 then nan else if 0 < a then posInf else negInf)
      else fin (a / b)
  | fin _, posInf => fin 0
  | fin _, negInf => fin 0
  | posInf, fin b => if 0 ≤ b then posInf else negInf
  | negInf, fin b => if 0 ≤ b then negInf else posInf
  | posInf, posInf => nan
  | posInf, negInf => nan
  | negInf, posInf => nan
  | negInf, negInf => nan

instance : Add JSNum := ⟨add⟩
instance : Sub JSNum := ⟨sub⟩
instance : Mul JSNum := ⟨mul⟩
instance : Div JSNum := ⟨div⟩

/-- `Math.abs`. -/
def abs : JSNum → JSNum
  | fin a => fin |a|
  | posInf => posInf
  | negInf => posInf
  | nan => nan

/-- `Math.min` of two arguments: `NaN` as soon as one argument is `NaN`. -/
def min : JSNum → JSNum → JSNum
  | nan, _ => nan
  | _, nan => nan
  | fin a, fin b => fin (Min.min a b)
  | negInf, _ => negInf
  | _, negInf => negInf
  | posInf, b => b
  | a, posInf => a

/-- `Math.max` of two arguments: `NaN` as soon as one argument is `NaN`. -/
def max : JSNum → JSNum → JSNum
  | nan, _ => nan
  | _, nan => nan
  | fin a, fin b => fin (Max.max a b)
  | posInf, _ => posInf
  | _, posInf => posInf
  | negInf, b => b
  | a, negInf => a

/-- `Math.round`: the nearest integer, a tie going to the larger one
(`floor (x + 1/2)`); infinities and `NaN` are returned unchanged. -/
def round : JSNum → JSNum
  | fin a => fin (⌊a + 1 / 2⌋ : ℤ)
  | posInf => posInf
  | negInf => negInf
  | nan => nan

end JSNum

/-! ## Data -/

/-- A landmark point `{x, y}` in image pixel space. -/
structure Point where
  x : ℚ
  y : ℚ
  deriving DecidableEq

/-- The landmarks object handed over by the detector: `landmarks.positions`. -/
structure Landmarks where
  positions : List Point
  deriving DecidableEq

/-- The `type` tag of a symmetric pair. -/
inductive PairType where
  | jaw
  | eyebrow
  | eye
  | nose
  | mouth
  deriving DecidableEq

/-- An entry `{ left, right, type }` of `symmetricPairs`. -/
structure SymmetricPair where
  left : Nat
  right : Nat
  type : PairType
  deriving DecidableEq

/-- The only exception the function can raise: a property read on
`undefined`. -/
inductive JSError where
  | typeError
  deriving DecidableEq

/-- The object returned by `calculateSymmetryScore`. -/
structure SymmetryResult where
  score : JSNum
  midlineX : JSNum
  faceWidth : JSNum
  symmetricPairs : List SymmetricPair
  positions : List Point
  deriving DecidableEq

/-! ## The function -/

/-- The value of `positions[i].x`: a `TypeError` when `positions[i]` is
`undefined`, that is when `i` is not an index of the array. -/
def getX (positions : List Point) (i : Nat) : Except JSError JSNum :=
  match positions[i]? with
  | some p => .ok (.fin p.x)
  | none => .error .typeError

/-- The arrays `deviations` and `symmetricPairs` that the loops push to. -/
structure LoopState where
  deviations : List JSNum
  symmetricPairs : List SymmetricPair
  deriving DecidableEq

/-- One `pairs.forEach(([leftIdx, rightIdx]) => ...)` loop of the function:
for each pair in order, one deviation and one tagged entry are pushed. -/
def forEachPair (positions : List Point) (midlineX faceWidth : JSNum) (type : PairType) :
    List (Nat × Nat) → LoopState → Except JSError LoopState
  | [], st => .ok st
  | (leftIdx, rightIdx) :: rest, st =>
    match getX positions leftIdx, getX positions rightIdx with
    | .ok leftX, .ok rightX =>
      let leftDist := JSNum.abs (leftX - midlineX)
      let rightDist := JSNum.abs (rightX - midlineX)
      forEachPair positions midlineX faceWidth type rest
        { deviations := st.deviations ++ [JSNum.abs (leftDist - rightDist) / faceWidth]
          symmetricPairs := st.symmetricPairs ++ [⟨leftIdx, rightIdx, type⟩] }
    | _, _ => .error .typeError

/-- The array `jawPairs`. -/
def jawPairs : List (Nat × Nat) :=
  [(0, 16), (1, 15), (2, 14), (3, 13), (4, 12), (5, 11), (6, 10), (7, 9)]

/-- The array `eyebrowPairs`. -/
def eyebrowPairs : List (Nat × Nat) :=
  [(17, 26), (18, 25), (19, 24), (20, 23), (21, 22)]

/-- The array `eyePairs`. -/
def eyePairs : List (Nat × Nat) :=
  [(36, 45), (37, 44), (38, 43), (39, 42), (40, 47), (41, 46)]

/-- The array `nosePairs` (the nose wings). -/
def nosePairs : List (Nat × Nat) :=
  [(31, 35), (32, 34)]

/-- The array `mouthPairs`. -/
def mouthPairs : List (Nat × Nat) :=
  [(48, 54), (49, 53), (50, 52), (60, 64), (61, 63)]

/-- The local variables of `calculateSymmetryScore` just before its `return`. -/
structure Locals where
  midlineX : JSNum
  faceWidth : JSNum
  deviations : List JSNum
  symmetricPairs : List SymmetricPair
  avgDeviation : JSNum
  score : JSNum
  deriving DecidableEq

/-- The expression `deviations.reduce((sum, d) => sum + d, 0) / deviations.length`. -/
def average (deviations : List JSNum) : JSNum :=
  deviations.foldl (fun sum d => sum + d) (.fin 0) / .fin (deviations.length : ℚ)

/-- The expression `Math.max(0, Math.min(100, (1 - avgDeviation * 2) * 100))`. -/
def scoreOfDeviation (avgDeviation : JSNum) : JSNum :=
  JSNum.max (.fin 0) (JSNum.min (.fin 100) ((.fin 1 - avgDeviation * .fin 2) * .fin 100))

/-- The body of `calculateSymmetryScore` up to the `return` statement. -/
def calculateSymmetryScore.locals (landmarks : Landmarks) (_imgWidth _imgHeight : ℚ) :
    Except JSError Locals := do
  let positions := landmarks.positions
  let noseTipX ← getX positions 30
  let chinX ← getX positions 8
  let midlineX := (noseTipX + chinX) / .fin 2
  let leftCheekX ← getX positions 1
  let rightCheekX ← getX positions 15
  let faceWidth := JSNum.abs (rightCheekX - leftCheekX)
  let st : LoopState := { deviations := [], symmetricPairs := [] }
  let st ← forEachPair positions midlineX faceWidth .jaw jawPairs st
  let st ← forEachPair positions midlineX faceWidth .eyebrow eyebrowPairs st
  let st ← forEachPair positions midlineX faceWidth .eye eyePairs st
  let st ← forEachPair positions midlineX faceWidth .nose nosePairs st
  let st ← forEachPair positions midlineX faceWidth .mouth mouthPairs st
  let avgDeviation := average st.deviations
  let score := scoreOfDeviation avgDeviation
  pure { midlineX := midlineX, faceWidth := faceWidth, deviations := st.deviations,
         symmetricPairs := st.symmetricPairs, avgDeviation := avgDeviation, score := score }

/-- The function `calculateSymmetryScore(landmarks, imgWidth, imgHeight)`. -/
def calculateSymmetryScore (landmarks : Landmarks) (imgWidth imgHeight : ℚ) :
    Except JSError SymmetryResult := do
  let v ← calculateSymmetryScore.locals landmarks imgWidth imgHeight
  pure { score := JSNum.round v.score, midlineX := v.midlineX, faceWidth := v.faceWidth,
         symmetricPairs := v.symmetricPairs, positions := landmarks.positions }

/-! ## Reference definition and closed forms

The definitions of this section restate the scoring rule over exact rationals:
the midline, the face width, the deviation of a pair and the mean deviation,
as the documentation of the function describes them.  The theorems relate them
to the embedded function above. -/

/-- The x-coordinate of landmark `i` (`0` when `i` is not an index). -/
def xAt (positions : List Point) (i : Nat) : ℚ := (positions.getD i ⟨0, 0⟩).x

/-- The deviation a loop pushes for the pair `p`, given the values of
`midlineX` and `faceWidth`. -/
def deviationJS (positions : List Point) (midlineX faceWidth : JSNum) (p : Nat × Nat) : JSNum :=
  JSNum.abs (JSNum.abs (.fin (xAt positions p.1) - midlineX)
    - JSNum.abs (.fin (xAt positions p.2) - midlineX)) / faceWidth

/-- The index pairs of the five loops, in the order they are processed. -/
def allPairs : List (Nat × Nat) :=
  jawPairs ++ eyebrowPairs ++ eyePairs ++ nosePairs ++ mouthPairs

/-- The tagged entries the five loops push to `symmetricPairs`, in order. -/
def pairTable : List SymmetricPair :=
  jawPairs.map (fun p => ⟨p.1, p.2, .jaw⟩) ++ eyebrowPairs.map (fun p => ⟨p.1, p.2, .eyebrow⟩)
    ++ eyePairs.map (fun p => ⟨p.1, p.2, .eye⟩) ++ nosePairs.map (fun p => ⟨p.1, p.2, .nose⟩)
    ++ mouthPairs.map (fun p => ⟨p.1, p.2, .mouth⟩)

/-- Midline of the reference definition: `(positions[30].x + positions[8].x) / 2`. -/
def midlineOf (positions : List Point) : ℚ := (xAt positions 30 + xAt positions 8) / 2

/-- Face width of the reference definition: `|positions[15].x - positions[1].x|`. -/
def faceWidthOf (positions : List Point) : ℚ := |xAt positions 15 - xAt positions 1|

/-- Horizontal distance of landmark `i` from the midline. -/
def distOf (positions : List Point) (i : Nat) : ℚ := |xAt positions i - midlineOf positions|

/-- Deviation of the pair `(L, R)` in the reference definition:
`| |x_L - midlineX| - |x_R - midlineX| | / faceWidth`. -/
def deviationOf (positions : List Point) (p : Nat × Nat) : ℚ :=
  |distOf positions p.1 - distOf positions p.2| / faceWidthOf positions

/-- Mean of the deviations of all table pairs. -/
def avgDeviationOf (positions : List Point) : ℚ :=
  (allPairs.map (deviationOf positions)).sum / (allPairs.length : ℚ)

/-- The real number `clamp(0, 100, (1 - 2 * a) * 100)`. -/
def clampedScore (a : ℚ) : ℚ := max 0 (min 100 ((1 - 2 * a) * 100))

/-- The integer nearest to `q`, the larger one at a tie. -/
def nearestInt (q : ℚ) : ℤ := ⌊q + 1 / 2⌋

/-- Landmarks `0 .. n-1` with x-coordinates given by `f` and `y = 0`. -/
def faceOf (f : Nat → ℚ) (n : Nat) : Landmarks :=
  ⟨(List.range n).map fun i => ⟨f i, 0⟩⟩

/-- A mirror-symmetric face: cheeks at `-100` and `100`, all else on the midline. -/
def symmetricX (i : Nat) : ℚ :=
  if i = 1 then -100 else if i = 15 then 100 else 0

/-- The symmetric face with the eye pair `(36, 45)` offset: deviation `1/10`. -/
def offsetEyeX (i : Nat) : ℚ :=
  if i = 1 then -100 else if i = 15 then 100 else if i = 36 then -50 else if i = 45 then 70
  else 0

/-- A face whose two cheek points have the same x-coordinate. -/
def coincidentCheekX (i : Nat) : ℚ :=
  if i = 1 then 50 else if i = 15 then 50 else if i = 36 then -50 else if i = 45 then 70 else 0

/-- Number of entries of a pair list that carry the tag `t`. -/
def countType (t : PairType) (l : List SymmetricPair) : Nat :=
  (l.filter (fun e => e.type = t)).length

/-- The four landmark indices the function reads before its loops: nose tip,
chin, left cheek, right cheek. -/
def anchorIndices : List Nat := [30, 8, 1, 15]

/-- The landmarks of `faceOf f n` with the y-coordinates replaced by `g`. -/
def faceOfXY (f g : Nat → ℚ) (n : Nat) : Landmarks :=
  ⟨(List.range n).map fun i => ⟨f i, g i⟩⟩

/-! ## Zoom and pan of the main canvas

The globals `zoomLevel`, `panX`, `panY` and the handlers that assign
`zoomLevel`.  The numbers are exact rationals; the handlers divide by
`zoomBefore` and by `lastTouchDistance` only, the latter under the guard
`lastTouchDistance > 0`. -/

/-- The globals `zoomLevel`, `panX` and `panY`. -/
structure ZoomState where
  zoomLevel : ℚ
  panX : ℚ
  panY : ℚ
  deriving DecidableEq

/-- The function `zoomIn()`; `rectWidth` and `rectHeight` are the size of the
bounding rectangle of the canvas container. -/
def zoomIn (s : ZoomState) (rectWidth rectHeight : ℚ) : ZoomState :=
  let centerX := rectWidth / 2
  let centerY := rectHeight / 2
  let zoomBefore := s.zoomLevel
  let zoomLevel := min (s.zoomLevel * 1.2) 5
  if zoomLevel > 1 then
    let zoomChange := zoomLevel / zoomBefore
    { zoomLevel := zoomLevel
      panX := centerX - (centerX - s.panX) * zoomChange
      panY := centerY - (centerY - s.panY) * zoomChange }
  else
    { zoomLevel := zoomLevel, panX := s.panX, panY := s.panY }

/-- The function `zoomOut()`. -/
def zoomOut (s : ZoomState) (rectWidth rectHeight : ℚ) : ZoomState :=
  let centerX := rectWidth / 2
  let centerY := rectHeight / 2
  let zoomBefore := s.zoomLevel
  let zoomLevel := max (s.zoomLevel / 1.2) 1
  if zoomLevel > 1 then
    let zoomChange := zoomLevel / zoomBefore
    { zoomLevel := zoomLevel
      panX := centerX - (centerX - s.panX) * zoomChange
      panY := centerY - (centerY - s.panY) * zoomChange }
  else
    { zoomLevel := zoomLevel, panX := 0, panY := 0 }

/-- The function `resetZoom()`. -/
def resetZoom (_s : ZoomState) : ZoomState :=
  { zoomLevel := 1, panX := 0, panY := 0 }

/-- The `wheel` listener of the canvas container. -/
def wheelStep (s : ZoomState) (deltaY clientX clientY rectLeft rectTop : ℚ) : ZoomState :=
  let delta : ℚ := if deltaY > 0 then 0.9 else 1.1
  let x := clientX - rectLeft
  let y := clientY - rectTop
  let zoomBefore := s.zoomLevel
  let zoomLevel := max 1 (min (s.zoomLevel * delta) 5)
  if zoomLevel > 1 then
    let zoomChange := zoomLevel / zoomBefore
    { zoomLevel := zoomLevel
      panX := x - (x - s.panX) * zoomChange
      panY := y - (y - s.panY) * zoomChange }
  else
    { zoomLevel := zoomLevel, panX := 0, panY := 0 }

/-- The two-touch branch of the `touchmove` listener, as far as it assigns
`zoomLevel`, `panX` and `panY`.  `currentDistance` is the value of
`getTouchDistance(e.touches)`, `lastTouchDistance` the value of that global
when the listener runs, and `(centerX, centerY)` the touch centre relative to
the container. -/
def pinchStep (s : ZoomState) (currentDistance lastTouchDistance centerX centerY : ℚ) :
    ZoomState :=
  if lastTouchDistance > 0 then
    let scale := currentDistance / lastTouchDistance
    let zoomBefore := s.zoomLevel
    let zoomLevel := max 1 (min (s.zoomLevel * scale) 5)
    if zoomLevel > 1 then
      let zoomChange := zoomLevel / zoomBefore
      { zoomLevel := zoomLevel
        panX := centerX - (centerX - s.panX) * zoomChange
        panY := centerY - (centerY - s.panY) * zoomChange }
    else
      { zoomLevel := zoomLevel, panX := 0, panY := 0 }
  else s

/-- One user action that can assign `zoomLevel` of the main canvas. -/
inductive ZoomEvent where
  | zoomIn (rectWidth rectHeight : ℚ)
  | zoomOut (rectWidth rectHeight : ℚ)
  | resetZoom
  | wheel (deltaY clientX clientY rectLeft rectTop : ℚ)
  | pinch (currentDistance lastTouchDistance centerX centerY : ℚ)

/-- The state after one action. -/
def zoomStep (s : ZoomState) : ZoomEvent → ZoomState
  | .zoomIn rectWidth rectHeight => zoomIn s rectWidth rectHeight
  | .zoomOut rectWidth rectHeight => zoomOut s rectWidth rectHeight
  | .resetZoom => resetZoom s
  | .wheel deltaY clientX clientY rectLeft rectTop =>
      wheelStep s deltaY clientX clientY rectLeft rectTop
  | .pinch currentDistance lastTouchDistance centerX centerY =>
      pinchStep s currentDistance lastTouchDistance centerX centerY

/-- The state after a sequence of actions, the first of the list first. -/
def zoomRun (s : ZoomState) (events : List ZoomEvent) : ZoomState :=
  events.foldl zoomStep s

/-- The action is `zoomOut`, a wheel step, or a pinch step that computes a
scale factor (`lastTouchDistance > 0`). -/
def ZoomEvent.clampsFromBelow : ZoomEvent → Prop
  | .zoomOut _ _ => True
  | .wheel _ _ _ _ _ => True
  | .pinch _ lastTouchDistance _ _ => 0 < lastTouchDistance
  | _ => False

/-- The zoom level is between 1 and 5. -/
def ZoomState.inRange (s : ZoomState) : Prop := 1 ≤ s.zoomLevel ∧ s.zoomLevel ≤ 5

/-! ## Theorems -/

namespace JSNum

@[simp]
theorem fin_add (a b : ℚ) : fin a + fin b = fin (a + b) := rfl

@[simp]
theorem fin_sub (a b : ℚ) : fin a - fin b = fin (a - b) := by
  show add (fin a) (neg (fin b)) = _
  simp [add, neg, sub_eq_add_neg]

@[simp]
theorem fin_mul (a b : ℚ) : fin a * fin b = fin (a * b) := rfl

theorem fin_div (a b : ℚ) (hb : b ≠ 0) : fin a / fin b = fin (a / b) := by
  show div (fin a) (fin b) = _
  simp [div, hb]

@[simp]
theorem abs_fin (a : ℚ) : abs (fin a) = fin |a| := rfl

@[simp]
theorem min_fin (a b : ℚ) : min (fin a) (fin b) = fin (Min.min a b) := rfl

@[simp]
theorem max_fin (a b : ℚ) : max (fin a) (fin b) = fin (Max.max a b) := rfl

@[simp]
theorem round_fin (a : ℚ) : round (fin a) = fin (⌊a + 1 / 2⌋ : ℤ) := rfl

@[simp]
theorem nan_add (a : JSNum) : nan + a = nan := by
  show add nan a = nan
  cases a <;> rfl

@[simp]
theorem add_nan (a : JSNum) : a + nan = nan := by
  show add a nan = nan
  cases a <;> rfl

@[simp]
theorem nan_div (a : JSNum) : nan / a = nan := by
  show div nan a = nan
  cases a <;> rfl

@[simp]
theorem nan_mul (a : JSNum) : nan * a = nan := by
  show mul nan a = nan
  cases a <;> rfl

@[simp]
theorem sub_nan (a : JSNum) : a - nan = nan := by
  show add a (neg nan) = nan
  cases a <;> rfl

@[simp]
theorem zero_div_zero : fin 0 / fin 0 = nan := by
  show div (fin 0) (fin 0) = nan
  simp [div]

end JSNum

theorem getX_of_lt (positions : List Point) (i : Nat) (h : i < positions.length) :
    getX positions i = .ok (.fin (xAt positions i)) := by
  simp [getX, xAt, List.getD, List.getElem?_eq_getElem h]

theorem getX_of_le (positions : List Point) (i : Nat) (h : positions.length ≤ i) :
    getX positions i = .error .typeError := by
  simp [getX, List.getElem?_eq_none h]

theorem forEachPair_ok (positions : List Point) (midlineX faceWidth : JSNum) (type : PairType)
    (pairs : List (Nat × Nat)) :
    ∀ st : LoopState, (∀ p ∈ pairs, p.1 < positions.length ∧ p.2 < positions.length) →
      forEachPair positions midlineX faceWidth type pairs st
        = .ok { deviations := st.deviations ++ pairs.map (deviationJS positions midlineX faceWidth)
                symmetricPairs := st.symmetricPairs ++ pairs.map (fun p => ⟨p.1, p.2, type⟩) } := by
  induction pairs with
  | nil => intro st _; simp [forEachPair]
  | cons p rest ih =>
    intro st h
    obtain ⟨l, r⟩ := p
    have hp := h (l, r) (List.mem_cons_self _ _)
    have hrest : ∀ q ∈ rest, q.1 < positions.length ∧ q.2 < positions.length :=
      fun q hq => h q (List.mem_cons_of_mem _ hq)
    simp only [forEachPair, getX_of_lt _ _ hp.1, getX_of_lt _ _ hp.2]
    rw [ih _ hrest]
    simp [deviationJS]

theorem forEachPair_error (positions : List Point) (midlineX faceWidth : JSNum) (type : PairType)
    (pairs : List (Nat × Nat)) :
    ∀ st : LoopState, (∃ p ∈ pairs, positions.length ≤ p.1 ∨ positions.length ≤ p.2) →
      forEachPair positions midlineX faceWidth type pairs st = .error .typeError := by
  induction pairs with
  | nil => intro st h; simp at h
  | cons p rest ih =>
    intro st h
    obtain ⟨l, r⟩ := p
    by_cases hl : l < positions.length
    · by_cases hr : r < positions.length
      · have : ∃ q ∈ rest, positions.length ≤ q.1 ∨ positions.length ≤ q.2 := by
          obtain ⟨q, hq, hq2⟩ := h
          rcases List.mem_cons.1 hq with rfl | hq
          · omega
          · exact ⟨q, hq, hq2⟩
        simp only [forEachPair, getX_of_lt _ _ hl, getX_of_lt _ _ hr]
        exact ih _ this
      · simp only [forEachPair, getX_of_lt _ _ hl, getX_of_le _ _ (not_lt.1 hr)]
    · simp only [forEachPair, getX_of_le _ _ (not_lt.1 hl)]

theorem allPairs_lt (p : Nat × Nat) (hp : p ∈ allPairs) : p.1 < 65 ∧ p.2 < 65 := by
  revert p
  decide

theorem locals_ok (lm : Landmarks) (w h : ℚ) (hlen : 65 ≤ lm.positions.length) :
    calculateSymmetryScore.locals lm w h
      = .ok { midlineX := .fin (midlineOf lm.positions)
              faceWidth := .fin (faceWidthOf lm.positions)
              deviations := allPairs.map
                (deviationJS lm.positions (.fin (midlineOf lm.positions))
                  (.fin (faceWidthOf lm.positions)))
              symmetricPairs := pairTable
              avgDeviation := average (allPairs.map
                (deviationJS lm.positions (.fin (midlineOf lm.positions))
                  (.fin (faceWidthOf lm.positions))))
              score := scoreOfDeviation (average (allPairs.map
                (deviationJS lm.positions (.fin (midlineOf lm.positions))
                  (.fin (faceWidthOf lm.positions))))) } := by
  have hin : ∀ l : List (Nat × Nat), (∀ p ∈ l, p ∈ allPairs) →
      ∀ p ∈ l, p.1 < lm.positions.length ∧ p.2 < lm.positions.length := by
    intro l hl p hp
    have := allPairs_lt p (hl p hp)
    omega
  have hj := hin jawPairs (by decide)
  have hb := hin eyebrowPairs (by decide)
  have he := hin eyePairs (by decide)
  have hn := hin nosePairs (by decide)
  have hm := hin mouthPairs (by decide)
  have hmid : (JSNum.fin (xAt lm.positions 30) + JSNum.fin (xAt lm.positions 8)) / JSNum.fin 2
      = JSNum.fin (midlineOf lm.positions) := by
    simp [JSNum.fin_div, midlineOf]
  have hfw : JSNum.abs (JSNum.fin (xAt lm.positions 15) - JSNum.fin (xAt lm.positions 1))
      = JSNum.fin (faceWidthOf lm.positions) := by
    simp [faceWidthOf]
  simp only [calculateSymmetryScore.locals, bind, Except.bind, pure, Except.pure,
    getX_of_lt lm.positions 30 (by omega), getX_of_lt lm.positions 8 (by omega),
    getX_of_lt lm.positions 1 (by omega), getX_of_lt lm.positions 15 (by omega),
    hmid, hfw, forEachPair_ok _ _ _ _ _ _ hj, forEachPair_ok _ _ _ _ _ _ hb,
    forEachPair_ok _ _ _ _ _ _ he, forEachPair_ok _ _ _ _ _ _ hn, forEachPair_ok _ _ _ _ _ _ hm]
  simp [allPairs, pairTable]

theorem deviationJS_fin (positions : List Point) (p : Nat × Nat)
    (hw : faceWidthOf positions ≠ 0) :
    deviationJS positions (.fin (midlineOf positions)) (.fin (faceWidthOf positions)) p
      = .fin (deviationOf positions p) := by
  simp [deviationJS, JSNum.fin_div _ _ hw, deviationOf, distOf]

theorem foldl_add_fin (l : List ℚ) :
    ∀ a : ℚ, (l.map JSNum.fin).foldl (fun sum d => sum + d) (.fin a) = .fin (a + l.sum) := by
  induction l with
  | nil => intro a; simp
  | cons b rest ih =>
    intro a
    simp only [List.map_cons, List.foldl_cons, List.sum_cons, JSNum.fin_add, ih]
    rw [add_assoc]

theorem average_fin (l : List ℚ) (hl : l ≠ []) :
    average (l.map JSNum.fin) = .fin (l.sum / (l.length : ℚ)) := by
  have hlen : (l.length : ℚ) ≠ 0 := by
    have : l.length ≠ 0 := fun h => hl (List.length_eq_zero.1 h)
    exact_mod_cast this
  unfold average
  rw [foldl_add_fin]
  rw [List.length_map, JSNum.fin_div _ _ hlen, zero_add]

theorem scoreOfDeviation_fin (a : ℚ) : scoreOfDeviation (.fin a) = .fin (clampedScore a) := by
  simp [scoreOfDeviation, clampedScore, mul_comm]

theorem deviations_fin (positions : List Point) (hw : faceWidthOf positions ≠ 0) :
    allPairs.map (deviationJS positions (.fin (midlineOf positions))
        (.fin (faceWidthOf positions)))
      = (allPairs.map (deviationOf positions)).map JSNum.fin := by
  rw [List.map_map]
  exact List.map_congr_left (fun p _ => deviationJS_fin positions p hw)

theorem locals_fin (lm : Landmarks) (w h : ℚ) (hlen : 65 ≤ lm.positions.length)
    (hw : faceWidthOf lm.positions ≠ 0) :
    calculateSymmetryScore.locals lm w h
      = .ok { midlineX := .fin (midlineOf lm.positions)
              faceWidth := .fin (faceWidthOf lm.positions)
              deviations := (allPairs.map (deviationOf lm.positions)).map JSNum.fin
              symmetricPairs := pairTable
              avgDeviation := .fin (avgDeviationOf lm.positions)
              score := .fin (clampedScore (avgDeviationOf lm.positions)) } := by
  rw [locals_ok lm w h hlen, deviations_fin _ hw, average_fin _ (by simp [allPairs, jawPairs]),
    scoreOfDeviation_fin]
  simp [avgDeviationOf]

theorem score_fin (lm : Landmarks) (w h : ℚ) (hlen : 65 ≤ lm.positions.length)
    (hw : faceWidthOf lm.positions ≠ 0) :
    calculateSymmetryScore lm w h
      = .ok { score := .fin (nearestInt (clampedScore (avgDeviationOf lm.positions)))
              midlineX := .fin (midlineOf lm.positions)
              faceWidth := .fin (faceWidthOf lm.positions)
              symmetricPairs := pairTable
              positions := lm.positions } := by
  simp only [calculateSymmetryScore, locals_fin lm w h hlen hw, bind, Except.bind, pure,
    Except.pure, JSNum.round, nearestInt]

theorem length_faceOf (f : Nat → ℚ) (n : Nat) : (faceOf f n).positions.length = n := by
  simp [faceOf]

theorem xAt_faceOf (f : Nat → ℚ) (n i : Nat) (h : i < n) :
    xAt (faceOf f n).positions i = f i := by
  simp [xAt, faceOf, List.getD, List.getElem?_eq_getElem, h]

theorem avgDeviationOf_eq_zero (positions : List Point)
    (h : ∀ p ∈ allPairs, distOf positions p.1 = distOf positions p.2) :
    avgDeviationOf positions = 0 := by
  have hz : allPairs.map (deviationOf positions) = allPairs.map (fun _ => (0 : ℚ)) :=
    List.map_congr_left (fun p hp => by simp [deviationOf, h p hp])
  simp [avgDeviationOf, hz]

theorem nearestInt_hundred : nearestInt (clampedScore 0) = 100 := by
  have : clampedScore 0 = 100 := by norm_num [clampedScore]
  rw [this, nearestInt, Int.floor_eq_iff]
  norm_num

theorem score_ok (lm : Landmarks) (w h : ℚ) (hlen : 65 ≤ lm.positions.length) :
    calculateSymmetryScore lm w h
      = .ok { score := JSNum.round (scoreOfDeviation (average (allPairs.map
                (deviationJS lm.positions (.fin (midlineOf lm.positions))
                  (.fin (faceWidthOf lm.positions))))))
              midlineX := .fin (midlineOf lm.positions)
              faceWidth := .fin (faceWidthOf lm.positions)
              symmetricPairs := pairTable
              positions := lm.positions } := by
  simp only [calculateSymmetryScore, locals_ok lm w h hlen, bind, Except.bind, pure, Except.pure]

theorem locals_error (lm : Landmarks) (w h : ℚ) (hlen : lm.positions.length < 65) :
    calculateSymmetryScore.locals lm w h = .error .typeError := by
  by_cases h30 : lm.positions.length ≤ 30
  · simp only [calculateSymmetryScore.locals, bind, Except.bind, getX_of_le _ 30 h30]
  have hin : ∀ (l : List (Nat × Nat)) (n : Nat), n ≤ lm.positions.length →
      (∀ p ∈ l, p.1 < n ∧ p.2 < n) →
      ∀ p ∈ l, p.1 < lm.positions.length ∧ p.2 < lm.positions.length := by
    intro l n hn hl p hp
    have := hl p hp
    omega
  have hj := hin jawPairs 31 (by omega) (by decide)
  have hb := hin eyebrowPairs 31 (by omega) (by decide)
  by_cases h47 : lm.positions.length ≤ 47
  · have he : ∃ p ∈ eyePairs, lm.positions.length ≤ p.1 ∨ lm.positions.length ≤ p.2 :=
      ⟨(40, 47), by decide, Or.inr h47⟩
    simp only [calculateSymmetryScore.locals, bind, Except.bind, pure, Except.pure,
      getX_of_lt lm.positions 30 (by omega), getX_of_lt lm.positions 8 (by omega),
      getX_of_lt lm.positions 1 (by omega), getX_of_lt lm.positions 15 (by omega),
      forEachPair_ok _ _ _ _ _ _ hj, forEachPair_ok _ _ _ _ _ _ hb,
      forEachPair_error _ _ _ _ _ _ he]
  · have he := hin eyePairs 48 (by omega) (by decide)
    have hn := hin nosePairs 48 (by omega) (by decide)
    have hm : ∃ p ∈ mouthPairs, lm.positions.length ≤ p.1 ∨ lm.positions.length ≤ p.2 :=
      ⟨(60, 64), by decide, Or.inr (by show lm.positions.length ≤ 64; omega)⟩
    simp only [calculateSymmetryScore.locals, bind, Except.bind, pure, Except.pure,
      getX_of_lt lm.positions 30 (by omega), getX_of_lt lm.positions 8 (by omega),
      getX_of_lt lm.positions 1 (by omega), getX_of_lt lm.positions 15 (by omega),
      forEachPair_ok _ _ _ _ _ _ hj, forEachPair_ok _ _ _ _ _ _ hb,
      forEachPair_ok _ _ _ _ _ _ he, forEachPair_ok _ _ _ _ _ _ hn,
      forEachPair_error _ _ _ _ _ _ hm]

theorem score_error (lm : Landmarks) (w h : ℚ) (hlen : lm.positions.length < 65) :
    calculateSymmetryScore lm w h = .error .typeError := by
  simp only [calculateSymmetryScore, locals_error lm w h hlen, bind, Except.bind]

theorem foldl_add_nan (l : List JSNum) :
    l.foldl (fun sum d => sum + d) JSNum.nan = JSNum.nan := by
  induction l with
  | nil => rfl
  | cons b rest ih => simpa using ih

theorem foldl_add_of_nan_mem (l : List JSNum) :
    ∀ a : JSNum, JSNum.nan ∈ l → l.foldl (fun sum d => sum + d) a = JSNum.nan := by
  induction l with
  | nil => intro a h; simp at h
  | cons b rest ih =>
    intro a h
    rcases List.mem_cons.1 h with hb | hr
    · subst hb
      simp [foldl_add_nan]
    · exact ih _ hr

theorem scoreOfDeviation_nan : scoreOfDeviation .nan = .nan := rfl

theorem average_zero_width (positions : List Point) (hw : faceWidthOf positions = 0) :
    average (allPairs.map (deviationJS positions (.fin (midlineOf positions))
      (.fin (faceWidthOf positions)))) = .nan := by
  have h1 : xAt positions 15 = xAt positions 1 := by
    have := abs_eq_zero.1 hw
    linarith
  have hnan : deviationJS positions (.fin (midlineOf positions)) (.fin (faceWidthOf positions))
      (1, 15) = .nan := by
    simp [deviationJS, hw, h1]
  have hmem : JSNum.nan ∈ allPairs.map
      (deviationJS positions (.fin (midlineOf positions)) (.fin (faceWidthOf positions))) :=
    List.mem_map.2 ⟨(1, 15), by decide, hnan⟩
  unfold average
  rw [foldl_add_of_nan_mem _ _ hmem, JSNum.nan_div]

theorem avgDeviationOf_symmetricX (n : Nat) (hn : 65 ≤ n) :
    faceWidthOf (faceOf symmetricX n).positions = 200 ∧
      avgDeviationOf (faceOf symmetricX n).positions = 0 := by
  have hx : ∀ i, i < 65 → xAt (faceOf symmetricX n).positions i = symmetricX i :=
    fun i hi => xAt_faceOf _ _ _ (by omega)
  constructor
  · rw [faceWidthOf, hx 15 (by omega), hx 1 (by omega)]
    norm_num [symmetricX]
  · apply avgDeviationOf_eq_zero
    intro p hp
    have := allPairs_lt p hp
    rw [distOf, distOf, midlineOf, hx 30 (by omega), hx 8 (by omega), hx p.1 this.1,
      hx p.2 this.2]
    revert p
    simp [allPairs, jawPairs, eyebrowPairs, eyePairs, nosePairs, mouthPairs, symmetricX]

/-- C6, as stated, fails: an array of 67 landmarks is not rejected; the
function returns a symmetry result for it, here with score 100. -/
theorem short_array_not_rejected :
    (faceOf symmetricX 67).positions.length ≠ 68 ∧
      calculateSymmetryScore (faceOf symmetricX 67) 640 480
        = .ok { score := .fin 100, midlineX := .fin 0, faceWidth := .fin 200,
                symmetricPairs := pairTable, positions := (faceOf symmetricX 67).positions } := by
  constructor
  · simp [length_faceOf]
  · have h := avgDeviationOf_symmetricX 67 (by norm_num)
    rw [score_fin _ _ _ (by simp [length_faceOf]) (by rw [h.1]; norm_num), h.1, h.2,
      nearestInt_hundred]
    simp [midlineOf, xAt_faceOf, symmetricX]

/-- C6, amended: the function has no length check and no `InvalidInput`
error.  It fails, with the `TypeError` of a property read on `undefined`,
exactly for the landmark arrays of fewer than 65 points (64 is the highest
index it reads), and it returns a symmetry result exactly for the arrays of
at least 65 points, whether or not the length is 68. -/
theorem fails_iff_fewer_than_65 (lm : Landmarks) (imgWidth imgHeight : ℚ) :
    (calculateSymmetryScore lm imgWidth imgHeight = .error .typeError
        ↔ lm.positions.length < 65) ∧
      ((∃ r, calculateSymmetryScore lm imgWidth imgHeight = .ok r)
        ↔ 65 ≤ lm.positions.length) := by
  by_cases h : lm.positions.length < 65
  · have he := score_error lm imgWidth imgHeight h
    refine ⟨⟨fun _ => h, fun _ => he⟩, ⟨?_, fun h65 => absurd h65 (by omega)⟩⟩
    rintro ⟨r, hr⟩
    rw [he] at hr
    cases hr
  · have ho := score_ok lm imgWidth imgHeight (by omega)
    refine ⟨⟨?_, fun hlt => absurd hlt h⟩, ⟨fun _ => by omega, fun _ => ⟨_, ho⟩⟩⟩
    intro he
    rw [ho] at he
    cases he

/-- C7, as stated, fails: for a 68-point input with `positions[1].x =
positions[15].x` no error is raised; the function divides by the zero face
width and returns a result, whose score is `NaN`. -/
theorem zero_width_not_rejected :
    (faceOf coincidentCheekX 68).positions.length = 68 ∧
      xAt (faceOf coincidentCheekX 68).positions 1
        = xAt (faceOf coincidentCheekX 68).positions 15 ∧
      calculateSymmetryScore (faceOf coincidentCheekX 68) 640 480
        = .ok { score := .nan, midlineX := .fin 0, faceWidth := .fin 0,
                symmetricPairs := pairTable,
                positions := (faceOf coincidentCheekX 68).positions } := by
  have hw : faceWidthOf (faceOf coincidentCheekX 68).positions = 0 := by
    simp [faceWidthOf, xAt_faceOf, coincidentCheekX]
  refine ⟨length_faceOf _ _, by simp [xAt_faceOf, coincidentCheekX], ?_⟩
  rw [score_ok _ _ _ (by simp [length_faceOf]), average_zero_width _ hw, hw]
  simp [scoreOfDeviation_nan, JSNum.round, midlineOf, xAt_faceOf, coincidentCheekX]

/-- C7, amended: the function has no `DegenerateGeometry` check.  For every
68-point input with `positions[1].x = positions[15].x` it raises no error: it
divides by the face width 0 and returns a result whose `faceWidth` is 0 and
whose score is `NaN`, which is no number of the range 0..100 (no default score
is substituted). -/
theorem zero_width_gives_nan (lm : Landmarks) (imgWidth imgHeight : ℚ)
    (hlen : lm.positions.length = 68) (hx : xAt lm.positions 1 = xAt lm.positions 15) :
    ∃ (v : Locals) (r : SymmetryResult),
      calculateSymmetryScore.locals lm imgWidth imgHeight = .ok v ∧
      calculateSymmetryScore lm imgWidth imgHeight = .ok r ∧
      r.faceWidth = .fin 0 ∧ r.score = .nan ∧ v.avgDeviation = .nan ∧
      v.deviations = allPairs.map (fun p =>
        JSNum.abs (JSNum.abs (.fin (xAt lm.positions p.1) - v.midlineX)
          - JSNum.abs (.fin (xAt lm.positions p.2) - v.midlineX)) / .fin 0) := by
  have hw : faceWidthOf lm.positions = 0 := by simp [faceWidthOf, hx]
  refine ⟨_, _, locals_ok lm imgWidth imgHeight (by omega),
    score_ok lm imgWidth imgHeight (by omega), ?_, ?_, ?_, ?_⟩
  · simp only [hw]
  · simp only [average_zero_width _ hw, scoreOfDeviation_nan, JSNum.round]
  · simp only [average_zero_width _ hw]
  · simp only [hw]
    rfl

theorem zero_width_gives_nan_witness :
    ∃ (v : Locals) (r : SymmetryResult),
      calculateSymmetryScore.locals (faceOf coincidentCheekX 68) 640 480 = .ok v ∧
      calculateSymmetryScore (faceOf coincidentCheekX 68) 640 480 = .ok r ∧
      r.faceWidth = .fin 0 ∧ r.score = .nan ∧ v.avgDeviation = .nan ∧
      v.deviations = allPairs.map (fun p =>
        JSNum.abs (JSNum.abs (.fin (xAt (faceOf coincidentCheekX 68).positions p.1) - v.midlineX)
          - JSNum.abs (.fin (xAt (faceOf coincidentCheekX 68).positions p.2) - v.midlineX))
            / .fin 0) :=
  zero_width_gives_nan (faceOf coincidentCheekX 68) 640 480 (length_faceOf _ _)
    (by simp [xAt_faceOf, coincidentCheekX])

theorem pairTable_counts :
    pairTable.length = 26 ∧ countType .jaw pairTable = 8 ∧ countType .eyebrow pairTable = 5 ∧
      countType .eye pairTable = 6 ∧ countType .nose pairTable = 2 ∧
      countType .mouth pairTable = 5 := by
  decide

theorem pairTable_eq :
    pairTable =
      [⟨0, 16, .jaw⟩, ⟨1, 15, .jaw⟩, ⟨2, 14, .jaw⟩, ⟨3, 13, .jaw⟩, ⟨4, 12, .jaw⟩,
       ⟨5, 11, .jaw⟩, ⟨6, 10, .jaw⟩, ⟨7, 9, .jaw⟩,
       ⟨17, 26, .eyebrow⟩, ⟨18, 25, .eyebrow⟩, ⟨19, 24, .eyebrow⟩, ⟨20, 23, .eyebrow⟩,
       ⟨21, 22, .eyebrow⟩,
       ⟨36, 45, .eye⟩, ⟨37, 44, .eye⟩, ⟨38, 43, .eye⟩, ⟨39, 42, .eye⟩, ⟨40, 47, .eye⟩,
       ⟨41, 46, .eye⟩,
       ⟨31, 35, .nose⟩, ⟨32, 34, .nose⟩,
       ⟨48, 54, .mouth⟩, ⟨49, 53, .mouth⟩, ⟨50, 52, .mouth⟩, ⟨60, 64, .mouth⟩,
       ⟨61, 63, .mouth⟩] := by
  decide

/-- C8, as stated, fails: for a 68-point input the returned `symmetricPairs`
list and the `deviations` array do not have 27 entries. -/
theorem pair_count_is_not_27 :
    (faceOf symmetricX 68).positions.length = 68 ∧
      ∃ (v : Locals) (r : SymmetryResult),
        calculateSymmetryScore.locals (faceOf symmetricX 68) 640 480 = .ok v ∧
        calculateSymmetryScore (faceOf symmetricX 68) 640 480 = .ok r ∧
        r.symmetricPairs.length ≠ 27 ∧ v.deviations.length ≠ 27 := by
  refine ⟨length_faceOf _ _, _, _, locals_ok _ _ _ (by simp [length_faceOf]),
    score_ok _ _ _ (by simp [length_faceOf]), ?_, ?_⟩
  · show pairTable.length ≠ 27
    decide
  · simp [allPairs, jawPairs, eyebrowPairs, eyePairs, nosePairs, mouthPairs]

/-- C8, amended: for every 68-point input, the `symmetricPairs` list returned
by the function has exactly 26 entries, and `avgDeviation` is the mean of
exactly 26 deviations (their sum divided by 26). -/
theorem pair_count_is_26 (lm : Landmarks) (imgWidth imgHeight : ℚ)
    (hlen : lm.positions.length = 68) :
    ∃ (v : Locals) (r : SymmetryResult),
      calculateSymmetryScore.locals lm imgWidth imgHeight = .ok v ∧
      calculateSymmetryScore lm imgWidth imgHeight = .ok r ∧
      r.symmetricPairs.length = 26 ∧ v.deviations.length = 26 ∧
      v.avgDeviation = v.deviations.foldl (fun sum d => sum + d) (.fin 0) / .fin 26 := by
  refine ⟨_, _, locals_ok lm imgWidth imgHeight (by omega),
    score_ok lm imgWidth imgHeight (by omega), ?_, ?_, ?_⟩
  · exact pairTable_counts.1
  · simp [allPairs, jawPairs, eyebrowPairs, eyePairs, nosePairs, mouthPairs]
  · simp only [average, List.length_map]
    norm_num [allPairs, jawPairs, eyebrowPairs, eyePairs, nosePairs, mouthPairs]

theorem pair_count_is_26_witness :
    ∃ (v : Locals) (r : SymmetryResult),
      calculateSymmetryScore.locals (faceOf offsetEyeX 68) 640 480 = .ok v ∧
      calculateSymmetryScore (faceOf offsetEyeX 68) 640 480 = .ok r ∧
      r.symmetricPairs.length = 26 ∧ v.deviations.length = 26 ∧
      v.avgDeviation = v.deviations.foldl (fun sum d => sum + d) (.fin 0) / .fin 26 :=
  pair_count_is_26 (faceOf offsetEyeX 68) 640 480 (length_faceOf _ _)

/-- C9: the `symmetricPairs` list returned by the function is the same fixed
table for every 68-point input (two calls on any two inputs return equal
lists, whatever the coordinates), and it holds exactly 8 pairs tagged jaw,
5 tagged eyebrow, 6 tagged eye, 2 tagged nose and 5 tagged mouth, which are
all of its 26 entries. -/
theorem symmetricPairs_fixed_table (lm lm' : Landmarks) (w h w' h' : ℚ)
    (hlen : lm.positions.length = 68) (hlen' : lm'.positions.length = 68) :
    ∃ r r' : SymmetryResult, calculateSymmetryScore lm w h = .ok r ∧
      calculateSymmetryScore lm' w' h' = .ok r' ∧
      r.symmetricPairs = r'.symmetricPairs ∧
      r.symmetricPairs =
        [⟨0, 16, .jaw⟩, ⟨1, 15, .jaw⟩, ⟨2, 14, .jaw⟩, ⟨3, 13, .jaw⟩, ⟨4, 12, .jaw⟩,
         ⟨5, 11, .jaw⟩, ⟨6, 10, .jaw⟩, ⟨7, 9, .jaw⟩,
         ⟨17, 26, .eyebrow⟩, ⟨18, 25, .eyebrow⟩, ⟨19, 24, .eyebrow⟩, ⟨20, 23, .eyebrow⟩,
         ⟨21, 22, .eyebrow⟩,
         ⟨36, 45, .eye⟩, ⟨37, 44, .eye⟩, ⟨38, 43, .eye⟩, ⟨39, 42, .eye⟩, ⟨40, 47, .eye⟩,
         ⟨41, 46, .eye⟩,
         ⟨31, 35, .nose⟩, ⟨32, 34, .nose⟩,
         ⟨48, 54, .mouth⟩, ⟨49, 53, .mouth⟩, ⟨50, 52, .mouth⟩, ⟨60, 64, .mouth⟩,
         ⟨61, 63, .mouth⟩] ∧
      countType .jaw r.symmetricPairs = 8 ∧ countType .eyebrow r.symmetricPairs = 5 ∧
      countType .eye r.symmetricPairs = 6 ∧ countType .nose r.symmetricPairs = 2 ∧
      countType .mouth r.symmetricPairs = 5 ∧ r.symmetricPairs.length = 8 + 5 + 6 + 2 + 5 :=
  ⟨_, _, score_ok lm w h (by omega), score_ok lm' w' h' (by omega), rfl, pairTable_eq,
    pairTable_counts.2.1, pairTable_counts.2.2.1, pairTable_counts.2.2.2.1,
    pairTable_counts.2.2.2.2.1, pairTable_counts.2.2.2.2.2, pairTable_counts.1⟩

theorem symmetricPairs_fixed_table_witness :
    ∃ r r' : SymmetryResult, calculateSymmetryScore (faceOf symmetricX 68) 640 480 = .ok r ∧
      calculateSymmetryScore (faceOf coincidentCheekX 68) 1024 768 = .ok r' ∧
      r.symmetricPairs = r'.symmetricPairs ∧
      r.symmetricPairs =
        [⟨0, 16, .jaw⟩, ⟨1, 15, .jaw⟩, ⟨2, 14, .jaw⟩, ⟨3, 13, .jaw⟩, ⟨4, 12, .jaw⟩,
         ⟨5, 11, .jaw⟩, ⟨6, 10, .jaw⟩, ⟨7, 9, .jaw⟩,
         ⟨17, 26, .eyebrow⟩, ⟨18, 25, .eyebrow⟩, ⟨19, 24, .eyebrow⟩, ⟨20, 23, .eyebrow⟩,
         ⟨21, 22, .eyebrow⟩,
         ⟨36, 45, .eye⟩, ⟨37, 44, .eye⟩, ⟨38, 43, .eye⟩, ⟨39, 42, .eye⟩, ⟨40, 47, .eye⟩,
         ⟨41, 46, .eye⟩,
         ⟨31, 35, .nose⟩, ⟨32, 34, .nose⟩,
         ⟨48, 54, .mouth⟩, ⟨49, 53, .mouth⟩, ⟨50, 52, .mouth⟩, ⟨60, 64, .mouth⟩,
         ⟨61, 63, .mouth⟩] ∧
      countType .jaw r.symmetricPairs = 8 ∧ countType .eyebrow r.symmetricPairs = 5 ∧
      countType .eye r.symmetricPairs = 6 ∧ countType .nose r.symmetricPairs = 2 ∧
      countType .mouth r.symmetricPairs = 5 ∧ r.symmetricPairs.length = 8 + 5 + 6 + 2 + 5 :=
  symmetricPairs_fixed_table (faceOf symmetricX 68) (faceOf coincidentCheekX 68) 640 480 1024 768
    (length_faceOf _ _) (length_faceOf _ _)

theorem xAt_eq_getD_map (positions : List Point) (i : Nat) :
    xAt positions i = (positions.map Point.x).getD i 0 := by
  simp only [xAt, List.getD_eq_getElem?_getD, List.getElem?_map]
  cases positions[i]? <;> rfl

theorem score_congr_xAt (lm lm' : Landmarks) (w h w' h' : ℚ)
    (hlen : 65 ≤ lm.positions.length) (hlen' : 65 ≤ lm'.positions.length)
    (hx : ∀ i, xAt lm.positions i = xAt lm'.positions i) :
    ∃ r r' : SymmetryResult, calculateSymmetryScore lm w h = .ok r ∧
      calculateSymmetryScore lm' w' h' = .ok r' ∧
      r.score = r'.score ∧ r.midlineX = r'.midlineX ∧ r.faceWidth = r'.faceWidth := by
  have hm : midlineOf lm.positions = midlineOf lm'.positions := by
    simp only [midlineOf, hx]
  have hw : faceWidthOf lm.positions = faceWidthOf lm'.positions := by
    simp only [faceWidthOf, hx]
  have hd : ∀ m fw : JSNum, deviationJS lm.positions m fw = deviationJS lm'.positions m fw := by
    intro m fw
    funext p
    simp only [deviationJS, hx]
  refine ⟨_, _, score_ok lm w h hlen, score_ok lm' w' h' hlen', ?_, ?_, ?_⟩
  · simp only [hm, hw, hd]
  · simp only [hm]
  · simp only [hw]

/-- C11: the score, `midlineX` and `faceWidth` returned by the function depend
only on the landmark x-coordinates.  Two calls on 68 landmarks with the same
x-coordinates return the same three values, whatever the y-coordinates and
whatever the `imgWidth` and `imgHeight` arguments. -/
theorem result_depends_on_x_only (lm lm' : Landmarks) (w h w' h' : ℚ)
    (hlen : lm.positions.length = 68) (hlen' : lm'.positions.length = 68)
    (hx : lm.positions.map Point.x = lm'.positions.map Point.x) :
    ∃ r r' : SymmetryResult, calculateSymmetryScore lm w h = .ok r ∧
      calculateSymmetryScore lm' w' h' = .ok r' ∧
      r.score = r'.score ∧ r.midlineX = r'.midlineX ∧ r.faceWidth = r'.faceWidth :=
  score_congr_xAt lm lm' w h w' h' (by omega) (by omega)
    (fun i => by rw [xAt_eq_getD_map, xAt_eq_getD_map, hx])

theorem result_depends_on_x_only_witness :
    ∃ r r' : SymmetryResult,
      calculateSymmetryScore (faceOf offsetEyeX 68) 640 480 = .ok r ∧
      calculateSymmetryScore (faceOfXY offsetEyeX (fun i => 3 * i + 1) 68) 1024 768 = .ok r' ∧
      r.score = r'.score ∧ r.midlineX = r'.midlineX ∧ r.faceWidth = r'.faceWidth :=
  result_depends_on_x_only (faceOf offsetEyeX 68) (faceOfXY offsetEyeX (fun i => 3 * i + 1) 68)
    640 480 1024 768 (length_faceOf _ _) (by simp [faceOfXY])
    (by simp [faceOf, faceOfXY])

/-! ## Index safety -/

theorem anchorIndices_lt (i : Nat) (hi : i ∈ anchorIndices) : i < 65 := by
  revert i
  decide

theorem pairTable_lt (e : SymmetricPair) (he : e ∈ pairTable) : e.left < 65 ∧ e.right < 65 := by
  revert e
  decide

/-- C12: for every input with exactly 68 landmarks, every index the function
reads (30, 8, 1, 15 and both indices of every table pair) is in the range
0..67 and its lookup succeeds, so the function returns a result; in that
result `positions` is the input landmark list unchanged, and the left and
right index of every entry of `symmetricPairs` is a valid index into it. -/
theorem indices_in_range (lm : Landmarks) (imgWidth imgHeight : ℚ)
    (hlen : lm.positions.length = 68) :
    (∀ i ∈ anchorIndices, i ≤ 67 ∧ ∃ p, lm.positions[i]? = some p ∧
        getX lm.positions i = .ok (.fin p.x)) ∧
      (∀ q ∈ allPairs, q.1 ≤ 67 ∧ q.2 ≤ 67 ∧
        (∃ p, lm.positions[q.1]? = some p ∧ getX lm.positions q.1 = .ok (.fin p.x)) ∧
        (∃ p, lm.positions[q.2]? = some p ∧ getX lm.positions q.2 = .ok (.fin p.x))) ∧
      ∃ r : SymmetryResult, calculateSymmetryScore lm imgWidth imgHeight = .ok r ∧
        r.positions = lm.positions ∧
        ∀ e ∈ r.symmetricPairs, e.left < r.positions.length ∧ e.right < r.positions.length ∧
          (r.positions[e.left]?).isSome ∧ (r.positions[e.right]?).isSome := by
  have hget : ∀ i, i < 65 → ∃ p, lm.positions[i]? = some p ∧
      getX lm.positions i = .ok (.fin p.x) := by
    intro i hi
    have hi' : i < lm.positions.length := by omega
    exact ⟨lm.positions[i], List.getElem?_eq_getElem hi',
      by simp [getX, List.getElem?_eq_getElem hi']⟩
  refine ⟨fun i hi => ?_, fun q hq => ?_, _, score_ok lm imgWidth imgHeight (by omega), rfl,
    fun e he => ?_⟩
  · have := anchorIndices_lt i hi
    exact ⟨by omega, hget i this⟩
  · have := allPairs_lt q hq
    exact ⟨by omega, by omega, hget q.1 this.1, hget q.2 this.2⟩
  · have := pairTable_lt e he
    have h1 : e.left < lm.positions.length := by omega
    have h2 : e.right < lm.positions.length := by omega
    exact ⟨h1, h2, by simp [List.getElem?_eq_getElem h1], by simp [List.getElem?_eq_getElem h2]⟩

theorem indices_in_range_witness :
    (∀ i ∈ anchorIndices, i ≤ 67 ∧ ∃ p, (faceOf offsetEyeX 68).positions[i]? = some p ∧
        getX (faceOf offsetEyeX 68).positions i = .ok (.fin p.x)) ∧
      (∀ q ∈ allPairs, q.1 ≤ 67 ∧ q.2 ≤ 67 ∧
        (∃ p, (faceOf offsetEyeX 68).positions[q.1]? = some p ∧
          getX (faceOf offsetEyeX 68).positions q.1 = .ok (.fin p.x)) ∧
        (∃ p, (faceOf offsetEyeX 68).positions[q.2]? = some p ∧
          getX (faceOf offsetEyeX 68).positions q.2 = .ok (.fin p.x))) ∧
      ∃ r : SymmetryResult, calculateSymmetryScore (faceOf offsetEyeX 68) 640 480 = .ok r ∧
        r.positions = (faceOf offsetEyeX 68).positions ∧
        ∀ e ∈ r.symmetricPairs, e.left < r.positions.length ∧ e.right < r.positions.length ∧
          (r.positions[e.left]?).isSome ∧ (r.positions[e.right]?).isSome :=
  indices_in_range (faceOf offsetEyeX 68) 640 480 (length_faceOf _ _)

/-! ## Monotonicity and reflection -/

theorem zoomLevel_apply_ite (c : Prop) [Decidable c] (z a b a' b' : ℚ) :
    (if c then ({ zoomLevel := z, panX := a, panY := b } : ZoomState)
      else { zoomLevel := z, panX := a', panY := b' }).zoomLevel = z := by
  split <;> rfl

theorem zoomIn_inRange (s : ZoomState) (rectW rectH : ℚ) (h : s.inRange) :
    (zoomIn s rectW rectH).inRange := by
  obtain ⟨h1, _⟩ := h
  have hz : (zoomIn s rectW rectH).zoomLevel = min (s.zoomLevel * 1.2) 5 := by
    simp only [zoomIn]
    exact zoomLevel_apply_ite _ _ _ _ _ _
  rw [ZoomState.inRange, hz]
  refine ⟨le_min ?_ (by norm_num), min_le_right _ _⟩
  norm_num
  linarith

theorem zoomOut_inRange (s : ZoomState) (rectW rectH : ℚ) (h : s.inRange) :
    (zoomOut s rectW rectH).inRange := by
  obtain ⟨_, h5⟩ := h
  have hz : (zoomOut s rectW rectH).zoomLevel = max (s.zoomLevel / 1.2) 1 := by
    simp only [zoomOut]
    exact zoomLevel_apply_ite _ _ _ _ _ _
  rw [ZoomState.inRange, hz]
  refine ⟨le_max_right _ _, max_le ?_ (by norm_num)⟩
  norm_num
  linarith

theorem clamp_inRange (q : ℚ) : 1 ≤ max 1 (min q 5) ∧ max 1 (min q 5) ≤ 5 :=
  ⟨le_max_left _ _, max_le (by norm_num) (min_le_right _ _)⟩

theorem wheelStep_inRange (s : ZoomState) (deltaY x y l t : ℚ) :
    (wheelStep s deltaY x y l t).inRange := by
  have hz : (wheelStep s deltaY x y l t).zoomLevel
      = max 1 (min (s.zoomLevel * (if deltaY > 0 then 0.9 else 1.1)) 5) := by
    simp only [wheelStep]
    exact zoomLevel_apply_ite _ _ _ _ _ _
  rw [ZoomState.inRange, hz]
  exact clamp_inRange _

theorem pinchStep_inRange (s : ZoomState) (cur last cx cy : ℚ) (h : s.inRange) :
    (pinchStep s cur last cx cy).inRange := by
  by_cases hl : last > 0
  · have hz : (pinchStep s cur last cx cy).zoomLevel
        = max 1 (min (s.zoomLevel * (cur / last)) 5) := by
      simp only [pinchStep, if_pos hl]
      exact zoomLevel_apply_ite _ _ _ _ _ _
    rw [ZoomState.inRange, hz]
    exact clamp_inRange _
  · simpa only [pinchStep, if_neg hl] using h

theorem zoomStep_inRange (s : ZoomState) (e : ZoomEvent) (h : s.inRange) :
    (zoomStep s e).inRange := by
  cases e with
  | zoomIn rectW rectH => exact zoomIn_inRange s rectW rectH h
  | zoomOut rectW rectH => exact zoomOut_inRange s rectW rectH h
  | resetZoom => exact ⟨le_rfl, by norm_num [zoomStep, resetZoom]⟩
  | wheel deltaY x y l t => exact wheelStep_inRange s deltaY x y l t
  | pinch cur last cx cy => exact pinchStep_inRange s cur last cx cy h

theorem zoomRun_inRange (events : List ZoomEvent) :
    ∀ s : ZoomState, s.inRange → (zoomRun s events).inRange := by
  induction events with
  | nil => intro s h; exact h
  | cons e rest ih =>
    intro s h
    exact ih _ (zoomStep_inRange s e h)

theorem pan_reset_of_not_gt (z a b : ℚ) :
    (if z > 1 then ({ zoomLevel := z, panX := a, panY := b } : ZoomState)
      else { zoomLevel := z, panX := 0, panY := 0 }).zoomLevel = 1 →
    (if z > 1 then ({ zoomLevel := z, panX := a, panY := b } : ZoomState)
      else { zoomLevel := z, panX := 0, panY := 0 }).panX = 0 ∧
    (if z > 1 then ({ zoomLevel := z, panX := a, panY := b } : ZoomState)
      else { zoomLevel := z, panX := 0, panY := 0 }).panY = 0 := by
  intro h
  by_cases hgt : z > 1
  · rw [if_pos hgt] at h
    exact absurd h (ne_of_gt hgt)
  · rw [if_neg hgt]
    exact ⟨rfl, rfl⟩

theorem zoomStep_pan_reset (s : ZoomState) (e : ZoomEvent) (he : e.clampsFromBelow)
    (h1 : (zoomStep s e).zoomLevel = 1) :
    (zoomStep s e).panX = 0 ∧ (zoomStep s e).panY = 0 := by
  cases e with
  | zoomIn rectW rectH => exact absurd he (by simp [ZoomEvent.clampsFromBelow])
  | resetZoom => exact absurd he (by simp [ZoomEvent.clampsFromBelow])
  | zoomOut rectW rectH =>
    simp only [zoomStep, zoomOut] at h1 ⊢
    exact pan_reset_of_not_gt _ _ _ h1
  | wheel deltaY x y l t =>
    simp only [zoomStep, wheelStep] at h1 ⊢
    exact pan_reset_of_not_gt _ _ _ h1
  | pinch cur last cx cy =>
    have hl : last > 0 := he
    simp only [zoomStep, pinchStep, if_pos hl] at h1 ⊢
    exact pan_reset_of_not_gt _ _ _ h1

/-- C15: the zoom level of the main canvas stays within `[1, 5]`.  Starting
from `zoomLevel = 1`, after any sequence of `zoomIn`, `zoomOut`, `resetZoom`,
wheel steps (factor 0.9 or 1.1) and pinch steps (any distances, so any scale
factor), `1 ≤ zoomLevel ≤ 5` holds; and whenever a following `zoomOut`, wheel
step or pinch step (one with `lastTouchDistance > 0`, which computes a scale)
leaves `zoomLevel` equal to 1, `panX` and `panY` are both 0 after it. -/
theorem zoom_level_within_bounds (start : ZoomState) (events : List ZoomEvent)
    (hstart : start.zoomLevel = 1) :
    1 ≤ (zoomRun start events).zoomLevel ∧ (zoomRun start events).zoomLevel ≤ 5 ∧
      ∀ e : ZoomEvent, e.clampsFromBelow →
        (zoomStep (zoomRun start events) e).zoomLevel = 1 →
        (zoomStep (zoomRun start events) e).panX = 0 ∧
          (zoomStep (zoomRun start events) e).panY = 0 := by
  have h := zoomRun_inRange events start ⟨by rw [hstart], by rw [hstart]; norm_num⟩
  exact ⟨h.1, h.2, fun e he h1 => zoomStep_pan_reset _ e he h1⟩

theorem zoom_level_within_bounds_witness :
    1 ≤ (zoomRun ⟨1, 0, 0⟩ [.zoomIn 800 600, .wheel (-3) 410 300 10 20, .pinch 90 60 400 300,
        .zoomOut 800 600, .pinch 10 200 400 300]).zoomLevel ∧
      (zoomRun ⟨1, 0, 0⟩ [.zoomIn 800 600, .wheel (-3) 410 300 10 20, .pinch 90 60 400 300,
        .zoomOut 800 600, .pinch 10 200 400 300]).zoomLevel ≤ 5 ∧
      ∀ e : ZoomEvent, e.clampsFromBelow →
        (zoomStep (zoomRun ⟨1, 0, 0⟩ [.zoomIn 800 600, .wheel (-3) 410 300 10 20,
          .pinch 90 60 400 300, .zoomOut 800 600, .pinch 10 200 400 300]) e).zoomLevel = 1 →
        (zoomStep (zoomRun ⟨1, 0, 0⟩ [.zoomIn 800 600, .wheel (-3) 410 300 10 20,
          .pinch 90 60 400 300, .zoomOut 800 600, .pinch 10 200 400 300]) e).panX = 0 ∧
          (zoomStep (zoomRun ⟨1, 0, 0⟩ [.zoomIn 800 600, .wheel (-3) 410 300 10 20,
            .pinch 90 60 400 300, .zoomOut 800 600, .pinch 10 200 400 300]) e).panY = 0 :=
  zoom_level_within_bounds ⟨1, 0, 0⟩ [.zoomIn 800 600, .wheel (-3) 410 300 10 20,
    .pinch 90 60 400 300, .zoomOut 800 600, .pinch 10 200 400 300] rfl

end FacialSymmetry
